import Mathlib

/-!
Verification of the TelemetryContext core of ApplicationInsights-JS
(`src/extensions/applicationinsights-properties-js/src/TelemetryContext.ts`).

JavaScript strings are modelled as `List Char`; JavaScript objects as
association lists with in-place update of an existing key.  Helpers of the
host SDK (`@microsoft/applicationinsights-core-js` and
`@microsoft/applicationinsights-common`) that are not part of the source
file are modelled from the specification; each such definition carries a
doc comment starting with `Modelled from the spec:`.
-/

/-- A JavaScript run-time value stored in a telemetry field: a string,
`undefined` (also standing for `null` / an absent attribute), or some other
non-string value (numbers, booleans, ...), which the string type guards
reject. -/
inductive JSVal where
  | str (s : List Char)
  | undefV
  | other (n : Nat)
deriving DecidableEq

/-- Modelled from the spec: `isString` of the host SDK core — true exactly on
string values. -/
def isStringJS : JSVal → Bool
  | .str _ => true
  | _ => false

/-- Coerces an optional string into a JavaScript value (`none` ↦ `undefined`). -/
def jsOfOpt : Option (List Char) → JSVal
  | some s => .str s
  | none => .undefV

/-- A JavaScript object whose fields hold scalar values (a telemetry
extension bucket or the `tags` mapping). -/
abbrev Bucket := List (String × JSVal)

/-- The telemetry item's `ext` mapping: extension-name to extension object. -/
abbrev ExtMap := List (String × Bucket)

/-- Property read `m[k]` on a JavaScript object. -/
def lookupKey {α : Type} : List (String × α) → String → Option α
  | [], _ => none
  | (k', v) :: rest, k => if k' = k then some v else lookupKey rest k

/-- Property write `m[k] = v` on a JavaScript object: overwrites an existing
key in place, otherwise appends the new key at the end. -/
def insertKey {α : Type} : List (String × α) → String → α → List (String × α)
  | [], k, v => [(k, v)]
  | (k', v') :: rest, k, v =>
    if k' = k then (k, v) :: rest else (k', v') :: insertKey rest k v

/-- Property removal `delete m[k]` on a JavaScript object. -/
def deleteKey {α : Type} (m : List (String × α)) (k : String) : List (String × α) :=
  m.filter (fun kv => kv.1 != k)

/-- The whitespace characters stripped by JavaScript `trim`. -/
def isSpaceChar (c : Char) : Bool :=
  c = ' ' || c = '\t' || c = '\n' || c = '\r' || c = '\x0b' || c = '\x0c'

/-- Modelled from the spec: `strTrim` of the host SDK core — removes
surrounding whitespace. -/
def strTrim (s : List Char) : List Char :=
  ((s.dropWhile isSpaceChar).reverse.dropWhile isSpaceChar).reverse

/-- A lowercase hexadecimal digit (`[0-9a-f]`, case-sensitive). -/
def isLowerHexDigit (c : Char) : Bool :=
  ('0' ≤ c && c ≤ '9') || ('a' ≤ c && c ≤ 'f')

/-- Modelled from the spec: `isValidTraceId` of the host SDK core — exactly
32 lowercase hexadecimal characters, not all zero. -/
def isValidTraceId (s : List Char) : Bool :=
  decide (s.length = 32) && s.all isLowerHexDigit && !(s.all (fun c => c = '0'))

/-- Modelled from the spec: `isValidSpanId` of the host SDK core — exactly
16 lowercase hexadecimal characters, not all zero. -/
def isValidSpanId (s : List Char) : Bool :=
  decide (s.length = 16) && s.all isLowerHexDigit && !(s.all (fun c => c = '0'))

/-- A decoded trace-correlation token: `TraceParent = { traceId, spanId }`. -/
structure ITraceParent where
  traceId : List Char
  spanId : List Char
deriving DecidableEq

/-- Modelled from the spec: `createTraceParent` of the host SDK core —
builds the `TraceParent` pair from the two validated halves (the source
calls it only after `isValidTraceId` and `isValidSpanId` both passed). -/
def createTraceParent (traceId spanId : List Char) : ITraceParent :=
  { traceId := traceId, spanId := spanId }

/-- Splits a string at its first `'.'`: embeds `value.indexOf(".")` together
with the two `substring` calls of `_parseRequestId`.  Yields `none` when no
`'.'` occurs (`indexOf` returned `-1`). -/
def splitAtFirstDot : List Char → Option (List Char × List Char)
  | [] => none
  | c :: cs =>
    if c = '.' then some ([], cs)
    else (splitAtFirstDot cs).map (fun p => (c :: p.1, p.2))

/-- Embeds the string branch of `_parseRequestId` (TelemetryContext.ts lines
224-248): falsy check, trim, leading `"|"`, split at the first `'.'`, strip
one optional trailing `'.'` from the span half, validate both halves. -/
def _parseRequestIdStr (value : List Char) : Option ITraceParent :=
  if value.isEmpty then none
  else
    match strTrim value with
    | [] => none
    | c :: rest =>
      if c = '|' then
        match splitAtFirstDot rest with
        | some (traceId, rest0) =>
          let spanId := if rest0.getLast? = some '.' then rest0.dropLast else rest0
          if isValidTraceId traceId && isValidSpanId spanId then
            some (createTraceParent traceId spanId)
          else none
        | none => none
      else none

/-- The possible run-time inputs of `_parseRequestId`: `undefined`, a string,
or a sequence of strings. -/
inductive RequestIdValue where
  | undefV
  | str (s : List Char)
  | arr (l : List (List Char))
deriving DecidableEq

/-- Embeds `_parseRequestId` (TelemetryContext.ts lines 224-248) on its full
input domain.  `undefined` is falsy; an array (always truthy, even empty) is
replaced by its first element or `""` before the string branch runs. -/
def _parseRequestId : RequestIdValue → Option ITraceParent
  | .undefV => none
  | .str s => _parseRequestIdStr s
  | .arr l => _parseRequestIdStr (l.head?.getD [])

/-- The correlation marker name searched for by discovery. -/
def requestIdName : List Char := "Request-Id".toList

/-- A `<meta>` element as seen by `doc.querySelectorAll("meta")`. -/
structure MetaElement where
  name : Option (List Char)
  content : Option (List Char)
deriving DecidableEq

/-- A `serverTiming` entry of a navigation-timing record. -/
structure ServerTimingEntry where
  name : Option (List Char)
  description : Option (List Char)
deriving DecidableEq

/-- A navigation-timing entry (`getEntriesByType("navigation")` element);
its `serverTiming` list may be absent. -/
structure NavEntry where
  serverTiming : Option (List ServerTimingEntry)
deriving DecidableEq

/-- The ambient environment probed by trace-parent discovery.
`w3cTraceParent` holds the result of the `findW3cTraceParent` probe
(modelled from the spec: the inbound W3C trace-context carrier, already
decoded upstream); `document` holds the meta elements when a document is
available; `navEntries` holds the navigation-timing entries when a
performance facility is available. -/
structure DiscoveryEnv where
  w3cTraceParent : Option ITraceParent
  document : Option (List MetaElement)
  navEntries : Option (List NavEntry)
deriving DecidableEq

/-- Modelled from the spec: `findW3cTraceParent` of the host SDK core —
consults the standard inbound trace-context carrier if the environment
exposes one. -/
def findW3cTraceParent (env : DiscoveryEnv) : Option ITraceParent :=
  env.w3cTraceParent

/-- Coerces an optional string property read into a `_parseRequestId`
input (`none` ↦ `undefined`). -/
def rvOfOpt : Option (List Char) → RequestIdValue
  | some s => .str s
  | none => .undefV

/-- Embeds `_getRequestIdValue` (TelemetryContext.ts lines 209-222): scans a
possibly-absent list for the first element whose truthy `name` equals
`"Request-Id"`; the source returns `{}` when nothing matches, whose field
reads yield `undefined` — modelled by `none` propagating through `bind`. -/
def _getRequestIdValue {α : Type} (nameOf : α → Option (List Char))
    (values : Option (List α)) : Option α :=
  match values with
  | none => none
  | some vs => vs.find? (fun v => decide (nameOf v = some requestIdName))

/-- The document branch of `_findRequestId`:
`_parseRequestId(_getRequestIdValue(doc.querySelectorAll("meta")).content)`. -/
def docRequestId (metas : List MetaElement) : Option ITraceParent :=
  _parseRequestId (rvOfOpt ((_getRequestIdValue MetaElement.name (some metas)).bind
    MetaElement.content))

/-- The performance branch of `_findRequestId`:
`_parseRequestId(_getRequestIdValue((navPerf[0] or empty).serverTiming).description)`. -/
def navRequestId (navPerf : List NavEntry) : Option ITraceParent :=
  _parseRequestId (rvOfOpt ((_getRequestIdValue ServerTimingEntry.name
    (navPerf.head?.bind NavEntry.serverTiming)).bind ServerTimingEntry.description))

/-- Embeds `_findRequestId` (TelemetryContext.ts lines 189-207): consult the
document's meta elements first; only if that yields nothing, consult the
first navigation-timing entry's server-timing list. -/
def _findRequestId (env : DiscoveryEnv) : Option ITraceParent :=
  let fromDoc :=
    match env.document with
    | some metas => docRequestId metas
    | none => none
  match fromDoc with
  | some tp => some tp
  | none =>
    match env.navEntries with
    | some navPerf => navRequestId navPerf
    | none => none

/-- Embeds the discovery sequence of the constructor (TelemetryContext.ts
lines 63-70): `findW3cTraceParent()` first, `_findRequestId()` only if it
yielded nothing. -/
def discoverTraceParent (env : DiscoveryEnv) : Option ITraceParent :=
  match findW3cTraceParent env with
  | some tp => some tp
  | none => _findRequestId env

/-- Modelled from the spec: extension bucket name `Extensions.DeviceExt`. -/
def Extensions.DeviceExt : String := "device"

/-- Modelled from the spec: extension bucket name `Extensions.UserExt`. -/
def Extensions.UserExt : String := "user"

/-- Modelled from the spec: extension bucket name `Extensions.WebExt`. -/
def Extensions.WebExt : String := "web"

/-- Modelled from the spec: extension bucket name `Extensions.OSExt`. -/
def Extensions.OSExt : String := "os"

/-- Modelled from the spec: extension bucket name `Extensions.AppExt`. -/
def Extensions.AppExt : String := "app"

/-- Modelled from the spec: extension bucket name `Extensions.TraceExt`. -/
def Extensions.TraceExt : String := "trace"

/-- Modelled from the spec: the `tags` key for the application version. -/
def CtxTagKeys.applicationVersion : String := "applicationVersion"

/-- Modelled from the spec: the `tags` key for the application build. -/
def CtxTagKeys.applicationBuild : String := "applicationBuild"

/-- Modelled from the spec: the `tags` key for the internal agent version. -/
def CtxTagKeys.internalAgentVersion : String := "internalAgentVersion"

/-- Modelled from the spec: the `tags` key for the internal SDK version. -/
def CtxTagKeys.internalSdkVersion : String := "internalSdkVersion"

/-- Modelled from the spec: the `tags` key for the internal snippet version. -/
def CtxTagKeys.internalSnippet : String := "internalSnippet"

/-- Modelled from the spec: the `tags` key for the internal SDK source. -/
def CtxTagKeys.internalSdkSrc : String := "internalSdkSrc"

/-- Modelled from the spec: the `tags` key for the location ip. -/
def CtxTagKeys.locationIp : String := "locationIp"

/-- Modelled from the spec: the `tags` key for the user account id. -/
def CtxTagKeys.userAccountId : String := "userAccountId"

/-- Modelled from the spec: the declared base type of internal log messages. -/
def _InternalLogMessage.dataType : String := "MessageData"

/-- Modelled from the spec: the declared base type of page-view items. -/
def PageView.dataType : String := "PageviewData"

/-- Modelled from the spec: the application context provider — a plain
attribute holder with version and build attributes. -/
structure Application where
  ver : JSVal
  build : JSVal
deriving DecidableEq

/-- Modelled from the spec: the device context provider — a plain attribute
holder with id / ip / model / deviceClass attributes. -/
structure Device where
  id : JSVal
  ip : JSVal
  model : JSVal
  deviceClass : JSVal
deriving DecidableEq

/-- Modelled from the spec: the location context provider — a plain
attribute holder with an ip attribute. -/
structure Location where
  ip : JSVal
deriving DecidableEq

/-- Modelled from the spec: the user context provider — a plain attribute
holder with accountId / id / authenticatedId attributes. -/
structure User where
  accountId : JSVal
  id : JSVal
  authenticatedId : JSVal
deriving DecidableEq

/-- Modelled from the spec: the internal context provider — a plain
attribute holder with agent/SDK version, snippet version and SDK source
attributes (populated from the configuration). -/
structure Internal where
  agentVersion : JSVal
  sdkVersion : JSVal
  snippetVer : JSVal
  sdkSrc : JSVal
deriving DecidableEq

/-- Modelled from the spec: a session record `{ id: string | undefined }`,
optionally set explicitly by the host application. -/
structure Session where
  id : JSVal
deriving DecidableEq

/-- Modelled from the spec: the external session manager, holding an
`automaticSession` it maintains. -/
structure _SessionManager where
  automaticSession : Option Session
deriving DecidableEq

/-- Modelled from the spec: the operation identity
`TelemetryTrace = { traceID, parentID, name }` created once per execution
scope. -/
structure TelemetryTrace where
  traceID : JSVal
  parentID : JSVal
  name : JSVal
deriving DecidableEq

/-- The `TelemetryContext` provider state: one optional instance of each
context provider for the current execution scope.  `os` and `web` are never
assigned by the constructor and are supplied by the host. -/
structure TelemetryContext where
  application : Option Application
  internal : Option Internal
  sessionManager : Option _SessionManager
  device : Option Device
  location : Option Location
  user : Option User
  session : Option Session
  telemetryTrace : Option TelemetryTrace
  os : Option Bucket
  web : Option Bucket
deriving DecidableEq

/-- The automatic branch of `getSessionId`:
`(sessionManager || {}).automaticSession` with the string guard on its id. -/
def autoSessionId (ctx : TelemetryContext) : Option (List Char) :=
  match ctx.sessionManager.bind _SessionManager.automaticSession with
  | some autoSession =>
    match autoSession.id with
    | .str sid => some sid
    | _ => none
  | none => none

/-- Embeds `getSessionId` (TelemetryContext.ts lines 76-91): an explicit
string session id wins; otherwise the session manager's automatic session id
when it is a string; otherwise `null`. -/
def getSessionId (ctx : TelemetryContext) : Option (List Char) :=
  match ctx.session with
  | some session =>
    match session.id with
    | .str sid => some sid
    | _ => autoSessionId ctx
  | none => autoSessionId ctx

/-- A telemetry item: externally owned record with optional `tags` and `ext`
buckets and a declared base type. -/
structure ITelemetryItem where
  ext : Option ExtMap
  tags : Option Bucket
  baseType : Option String
deriving DecidableEq

/-- Modelled from the spec: `setValue` of the host SDK core applied to a
scalar field — "a universal set-if-present-and-of-the-expected-type guard
applies to every field write": the write happens only when the value is
present and passes the type guard. -/
def setValue (target : Bucket) (field : String) (value : JSVal)
    (valueChk : JSVal → Bool) : Bucket :=
  if value != JSVal.undefV && valueChk value then insertKey target field value
  else target

/-- Modelled from the spec: `getSetValue` of the host SDK core on a present
target object — "return existing sub-mapping or create and attach an empty
one, then return it".  In this functional embedding the attachment is
performed by the enclosing operation's write-back `insertKey`. -/
def getSetValue {α : Type} (target : List (String × α)) (field : String)
    (dflt : α) : α :=
  (lookupKey target field).getD dflt

/-- Modelled from the spec: `setValue` of the host SDK core applied to a
whole extension object with no type guard: only the presence guards apply —
an absent target object or an absent value make it a no-op (failures degrade
to "field omitted"). -/
def setValueExt (target : Option ExtMap) (field : String)
    (value : Option Bucket) : Option ExtMap :=
  match target, value with
  | some e, some b => some (insertKey e field b)
  | _, _ => target

/-- A sequence of guarded `setValue` field writes with the string type
guard, performed left to right — the shape of every bucket update in the
apply-* operations (each operation lists its writes in source order). -/
def writeAll (ws : List (String × JSVal)) (b : Bucket) : Bucket :=
  ws.foldl (fun b kv => setValue b kv.1 kv.2 isStringJS) b

/-- Embeds `applySessionContext` (TelemetryContext.ts lines 93-95):
`setValue(getSetValue(evt.ext, Extensions.AppExt), "sesId", getSessionId(), isString)`.
When `evt.ext` is absent, `getSetValue` receives an absent target and yields
a detached default object, so the write is lost and the item is unchanged. -/
def applySessionContext (ctx : TelemetryContext) (evt : ITelemetryItem) : ITelemetryItem :=
  match evt.ext with
  | none => evt
  | some ext =>
    let extApp := writeAll [("sesId", jsOfOpt (getSessionId ctx))]
      (getSetValue ext Extensions.AppExt [])
    { evt with ext := some (insertKey ext Extensions.AppExt extApp) }

/-- Embeds `applyOperatingSystemContxt` (TelemetryContext.ts lines 97-99):
`setValue(evt.ext, Extensions.OSExt, os)` — writes the whole `os` record,
only when `evt.ext` already exists and `os` is set. -/
def applyOperatingSystemContxt (ctx : TelemetryContext) (evt : ITelemetryItem) : ITelemetryItem :=
  { evt with ext := setValueExt evt.ext Extensions.OSExt ctx.os }

/-- Embeds `applyApplicationContext` (TelemetryContext.ts lines 101-109):
guarded writes of the application version and build into `tags`
(`getSetValue(evt, strTags)` creates `tags` when absent). -/
def applyApplicationContext (ctx : TelemetryContext) (evt : ITelemetryItem) : ITelemetryItem :=
  match ctx.application with
  | none => evt
  | some application =>
    let tags := writeAll
      [ (CtxTagKeys.applicationVersion, application.ver)
      , (CtxTagKeys.applicationBuild, application.build) ] (evt.tags.getD [])
    { evt with tags := some tags }

/-- Embeds `applyDeviceContext` (TelemetryContext.ts lines 111-121): guarded
writes of localId / ip / model / deviceClass into `ext.device`
(`getSetValue(getSetValue(evt, strExt), Extensions.DeviceExt)` creates both
`ext` and the bucket when absent). -/
def applyDeviceContext (ctx : TelemetryContext) (evt : ITelemetryItem) : ITelemetryItem :=
  match ctx.device with
  | none => evt
  | some device =>
    let ext := evt.ext.getD []
    let extDevice := writeAll
      [ ("localId", device.id), ("ip", device.ip)
      , ("model", device.model), ("deviceClass", device.deviceClass) ]
      (getSetValue ext Extensions.DeviceExt [])
    { evt with ext := some (insertKey ext Extensions.DeviceExt extDevice) }

/-- Embeds `applyInternalContext` (TelemetryContext.ts lines 123-136):
guarded writes of the agent/SDK versions into `tags`; snippet version and
SDK source are additionally written when the item's base type is the
internal-log-message type or the page-view type. -/
def applyInternalContext (ctx : TelemetryContext) (evt : ITelemetryItem) : ITelemetryItem :=
  match ctx.internal with
  | none => evt
  | some internal =>
    let tags := writeAll
      ([ (CtxTagKeys.internalAgentVersion, internal.agentVersion)
       , (CtxTagKeys.internalSdkVersion, internal.sdkVersion) ] ++
       (if evt.baseType = some _InternalLogMessage.dataType
           ∨ evt.baseType = some PageView.dataType then
          [ (CtxTagKeys.internalSnippet, internal.snippetVer)
          , (CtxTagKeys.internalSdkSrc, internal.sdkSrc) ]
        else []))
      (evt.tags.getD [])
    { evt with tags := some tags }

/-- Embeds `applyLocationContext` (TelemetryContext.ts lines 138-143): a
guarded write of the location ip into `tags` (created when absent). -/
def applyLocationContext (ctx : TelemetryContext) (evt : ITelemetryItem) : ITelemetryItem :=
  match ctx.location with
  | none => evt
  | some location =>
    let tags := writeAll [(CtxTagKeys.locationIp, location.ip)] (evt.tags.getD [])
    { evt with tags := some tags }

/-- The default object `{ traceID: undefined, parentID: undefined }` passed
to `getSetValue` by `applyOperationContext`: two own keys with `undefined`
values. -/
def traceDefault : Bucket :=
  [("traceID", JSVal.undefV), ("parentID", JSVal.undefV)]

/-- Embeds `applyOperationContext` (TelemetryContext.ts lines 145-153):
guarded writes of traceID / name / parentID into `ext.trace` (created from
`traceDefault` when absent). -/
def applyOperationContext (ctx : TelemetryContext) (evt : ITelemetryItem) : ITelemetryItem :=
  match ctx.telemetryTrace with
  | none => evt
  | some telemetryTrace =>
    let ext := evt.ext.getD []
    let extTrace := writeAll
      [ ("traceID", telemetryTrace.traceID), ("name", telemetryTrace.name)
      , ("parentID", telemetryTrace.parentID) ]
      (getSetValue ext Extensions.TraceExt traceDefault)
    { evt with ext := some (insertKey ext Extensions.TraceExt extTrace) }

/-- Embeds `applyWebContext` (TelemetryContext.ts lines 155-160):
`setValue(getSetValue(evt, strExt), Extensions.WebExt, web)` — writes the
whole `web` record into a created-if-absent `ext`. -/
def applyWebContext (ctx : TelemetryContext) (evt : ITelemetryItem) : ITelemetryItem :=
  match ctx.web with
  | none => evt
  | some web =>
    let ext := evt.ext.getD []
    { evt with ext := some (insertKey ext Extensions.WebExt web) }

/-- Embeds `applyUserContext` (TelemetryContext.ts lines 162-175): a guarded
write of the account id into `tags` and guarded writes of id / authId into
`ext.user` (both containers created when absent). -/
def applyUserContext (ctx : TelemetryContext) (evt : ITelemetryItem) : ITelemetryItem :=
  match ctx.user with
  | none => evt
  | some user =>
    let tags := writeAll [(CtxTagKeys.userAccountId, user.accountId)] (evt.tags.getD [])
    let ext := evt.ext.getD []
    let extUser := writeAll [("id", user.id), ("authId", user.authenticatedId)]
      (getSetValue ext Extensions.UserExt [])
    { evt with tags := some tags, ext := some (insertKey ext Extensions.UserExt extUser) }

/-- Embeds `_removeEmpty` (TelemetryContext.ts lines 28-32): deletes
`target[name]` when it exists with zero own keys. -/
def _removeEmpty (target : ExtMap) (name : String) : ExtMap :=
  match lookupKey target name with
  | some b => if b.isEmpty then deleteKey target name else target
  | none => target

/-- Embeds `cleanUp` (TelemetryContext.ts lines 177-187): when `ext` exists,
removes each of the six named extension buckets that is present with zero
own keys. -/
def cleanUp (evt : ITelemetryItem) : ITelemetryItem :=
  match evt.ext with
  | none => evt
  | some ext =>
    let ext := _removeEmpty ext Extensions.DeviceExt
    let ext := _removeEmpty ext Extensions.UserExt
    let ext := _removeEmpty ext Extensions.WebExt
    let ext := _removeEmpty ext Extensions.OSExt
    let ext := _removeEmpty ext Extensions.AppExt
    let ext := _removeEmpty ext Extensions.TraceExt
    { evt with ext := some ext }

/-- One name per apply-* operation of the context-application pipeline. -/
inductive ApplyOp where
  | session
  | operatingSystem
  | application
  | device
  | internal
  | location
  | operation
  | web
  | user
deriving DecidableEq

/-- Dispatches an apply-* operation by name. -/
def applyOp (ctx : TelemetryContext) : ApplyOp → ITelemetryItem → ITelemetryItem
  | .session => applySessionContext ctx
  | .operatingSystem => applyOperatingSystemContxt ctx
  | .application => applyApplicationContext ctx
  | .device => applyDeviceContext ctx
  | .internal => applyInternalContext ctx
  | .location => applyLocationContext ctx
  | .operation => applyOperationContext ctx
  | .web => applyWebContext ctx
  | .user => applyUserContext ctx

/-- Runs a sequence of apply-* operations on a telemetry item. -/
def runOps (ctx : TelemetryContext) (evt : ITelemetryItem) (ops : List ApplyOp) : ITelemetryItem :=
  ops.foldl (fun e op => applyOp ctx op e) evt

/-- Embeds the `TelemetryContext` constructor (TelemetryContext.ts lines
49-74).  `application` and `internal` are always constructed; the
window-only providers are constructed only when a window is present, in
which case discovery seeds the new operation identity's `parentID` with the
discovered span id unless `disableTraceParent()` is true.  The provider
constructors not in the source file are modelled from the spec: fresh
attribute holders have all attributes unset, the internal provider, session
manager and user provider are populated from the configuration (passed here
as seeds), and the identity provider generates the operation's own
`traceID` itself (passed here as `genTraceId`). -/
def mkTelemetryContext (hasW disable : Bool) (env : DiscoveryEnv)
    (internalSeed : Internal) (smSeed : _SessionManager) (userSeed : User)
    (genTraceId : List Char) : TelemetryContext :=
  { application := some { ver := .undefV, build := .undefV }
    internal := some internalSeed
    sessionManager := if hasW then some smSeed else none
    device := if hasW then some { id := .undefV, ip := .undefV, model := .undefV, deviceClass := .undefV } else none
    location := if hasW then some { ip := .undefV } else none
    user := if hasW then some userSeed else none
    session := if hasW then some { id := .undefV } else none
    telemetryTrace :=
      if hasW then
        some { traceID := .str genTraceId
               parentID := jsOfOpt ((if disable then none
                                     else discoverTraceParent env).map ITraceParent.spanId)
               name := .undefV }
      else none
    os := none
    web := none }

/-- Looks up an extension bucket on a telemetry item. -/
def extLookup (evt : ITelemetryItem) (k : String) : Option Bucket :=
  evt.ext.bind (fun e => lookupKey e k)

/-- Looks up a tag on a telemetry item. -/
def tagsLookup (evt : ITelemetryItem) (k : String) : Option JSVal :=
  evt.tags.bind (fun t => lookupKey t k)

/-- True when the bucket under key `k` of the item's `ext` mapping is not an
object with zero own keys (vacuously true when absent). -/
def noEmptyBucketAt (evt : ITelemetryItem) (k : String) : Bool :=
  match extLookup evt k with
  | some b => !b.isEmpty
  | none => true

/-- The trace id of the specification's worked example. -/
def sampleTraceId : List Char := "4bf92f3577b34da6a3ce929d0e0e4736".toList

/-- The span id of the specification's worked example. -/
def sampleSpanId : List Char := "00f067aa0ba902b7".toList

/-- The specification's worked example of a legacy correlation token. -/
def sampleLegacyValue : List Char :=
  "|4bf92f3577b34da6a3ce929d0e0e4736.00f067aa0ba902b7.".toList

/-- A discovery environment with no W3C carrier and no performance facility
whose document holds two `Request-Id` meta elements: a malformed first one
and a well-formed second one. -/
def twoMetaEnv : DiscoveryEnv :=
  { w3cTraceParent := none
    document := some
      [ { name := some requestIdName, content := some "bad".toList }
      , { name := some requestIdName, content := some sampleLegacyValue } ]
    navEntries := none }

/-- A context whose host set an explicit session id and nothing else. -/
def sessionOnlyCtx : TelemetryContext :=
  { application := none, internal := none, sessionManager := none,
    device := none, location := none, user := none,
    session := some { id := .str "abc".toList },
    telemetryTrace := none, os := none, web := none }

/-- A telemetry item with no `ext` mapping at all. -/
def noExtItem : ITelemetryItem := { ext := none, tags := none, baseType := none }

/-- A telemetry item whose `ext` mapping exists but is empty. -/
def emptyExtItem : ITelemetryItem := { ext := some [], tags := none, baseType := none }

/-- A telemetry item whose `ext` holds a host-owned bucket, empty, under a
key that is none of the six named extension buckets. -/
def customEmptyItem : ITelemetryItem :=
  { ext := some [("custom", [])], tags := none, baseType := none }

/-- An environment exposing no ambient signal at all. -/
def emptyEnv : DiscoveryEnv :=
  { w3cTraceParent := none, document := none, navEntries := none }

/-- An internal provider seed with no attribute set. -/
def internalSeed0 : Internal :=
  { agentVersion := .undefV, sdkVersion := .undefV, snippetVer := .undefV, sdkSrc := .undefV }

/-- A session manager seed with no automatic session. -/
def smSeed0 : _SessionManager := { automaticSession := none }

/-- A user provider seed with no attribute set. -/
def userSeed0 : User := { accountId := .undefV, id := .undefV, authenticatedId := .undefV }

/-- The context constructed in a non-interactive (no-window) environment. -/
def noWindowCtx : TelemetryContext :=
  mkTelemetryContext false false emptyEnv internalSeed0 smSeed0 userSeed0 []

theorem lookupKey_insertKey_self {α : Type} (m : List (String × α)) (k : String) (v : α) :
    lookupKey (insertKey m k v) k = some v := by
  induction m with
  | nil => simp [insertKey, lookupKey]
  | cons kv rest ih =>
    obtain ⟨k', v'⟩ := kv
    by_cases h : k' = k
    · simp [insertKey, h, lookupKey]
    · simp [insertKey, h, lookupKey, ih]

theorem lookupKey_insertKey_other {α : Type} (m : List (String × α)) (k k' : String) (v : α)
    (h : k' ≠ k) : lookupKey (insertKey m k v) k' = lookupKey m k' := by
  induction m with
  | nil => simp [insertKey, lookupKey, Ne.symm h]
  | cons kv rest ih =>
    obtain ⟨k'', v''⟩ := kv
    by_cases h2 : k'' = k
    · subst h2
      simp [insertKey, lookupKey, Ne.symm h]
    · by_cases h3 : k'' = k'
      · simp [insertKey, h2, lookupKey, h3, h]
      · simp [insertKey, h2, lookupKey, h3, ih]

theorem insertKey_lookup_self {α : Type} {m : List (String × α)} {k : String} {v : α}
    (h : lookupKey m k = some v) : insertKey m k v = m := by
  induction m with
  | nil => simp [lookupKey] at h
  | cons kv rest ih =>
    obtain ⟨k', v'⟩ := kv
    by_cases h2 : k' = k
    · subst h2
      simp [lookupKey] at h
      simp [insertKey, h]
    · simp [lookupKey, h2] at h
      simp [insertKey, h2, ih h]

theorem lookupKey_deleteKey_self {α : Type} (m : List (String × α)) (k : String) :
    lookupKey (deleteKey m k) k = none := by
  induction m with
  | nil => simp [deleteKey, lookupKey]
  | cons kv rest ih =>
    obtain ⟨k', v'⟩ := kv
    by_cases h : k' = k
    · simpa [deleteKey, h] using ih
    · simpa [deleteKey, lookupKey, h] using ih

theorem lookupKey_deleteKey_other {α : Type} (m : List (String × α)) (k k' : String)
    (h : k' ≠ k) : lookupKey (deleteKey m k) k' = lookupKey m k' := by
  induction m with
  | nil => simp [deleteKey, lookupKey]
  | cons kv rest ih =>
    obtain ⟨k'', v''⟩ := kv
    by_cases h2 : k'' = k
    · subst h2
      simpa [deleteKey, lookupKey, Ne.symm h] using ih
    · by_cases h3 : k'' = k'
      · simp [deleteKey, lookupKey, h2, h3, h]
      · simpa [deleteKey, lookupKey, h2, h3] using ih

theorem setValue_guard_false {b : Bucket} {k : String} {v : JSVal} {chk : JSVal → Bool}
    (hg : (v != JSVal.undefV && chk v) = false) : setValue b k v chk = b := by
  simp [setValue, hg]

theorem setValue_lookup_self_of_guard {b : Bucket} {k : String} {v : JSVal} {chk : JSVal → Bool}
    (hg : (v != JSVal.undefV && chk v) = true) :
    lookupKey (setValue b k v chk) k = some v := by
  simp [setValue, hg, lookupKey_insertKey_self]

theorem setValue_lookup_other {b : Bucket} {k k' : String} {v : JSVal} {chk : JSVal → Bool}
    (h : k' ≠ k) : lookupKey (setValue b k v chk) k' = lookupKey b k' := by
  unfold setValue
  split
  · exact lookupKey_insertKey_other b k k' v h
  · rfl

theorem setValue_absorb {b : Bucket} {k : String} {v : JSVal} {chk : JSVal → Bool}
    (h : (v != JSVal.undefV && chk v) = true → lookupKey b k = some v) :
    setValue b k v chk = b := by
  unfold setValue
  split
  · next hg => exact insertKey_lookup_self (h hg)
  · rfl

theorem writeAll_nil (b : Bucket) : writeAll [] b = b := rfl

theorem writeAll_cons (w : String × JSVal) (ws : List (String × JSVal)) (b : Bucket) :
    writeAll (w :: ws) b = writeAll ws (setValue b w.1 w.2 isStringJS) := rfl

theorem lookupKey_writeAll_not_mem {ws : List (String × JSVal)} {k : String}
    (h : ∀ kv ∈ ws, kv.1 ≠ k) (b : Bucket) :
    lookupKey (writeAll ws b) k = lookupKey b k := by
  induction ws generalizing b with
  | nil => rfl
  | cons w ws ih =>
    rw [writeAll_cons, ih (fun kv hm => h kv (List.mem_cons_of_mem w hm))]
    exact setValue_lookup_other (Ne.symm (h w (List.mem_cons_self w ws)))

theorem writeAll_idem {ws : List (String × JSVal)}
    (hnd : (ws.map Prod.fst).Nodup) (b : Bucket) :
    writeAll ws (writeAll ws b) = writeAll ws b := by
  induction ws generalizing b with
  | nil => rfl
  | cons w ws ih =>
    rw [List.map_cons, List.nodup_cons] at hnd
    obtain ⟨hw, hnd⟩ := hnd
    have hkeys : ∀ kv ∈ ws, kv.1 ≠ w.1 := by
      intro kv hm he
      exact hw (he ▸ List.mem_map_of_mem Prod.fst hm)
    rw [writeAll_cons, writeAll_cons]
    have habs : setValue (writeAll ws (setValue b w.1 w.2 isStringJS)) w.1 w.2 isStringJS
        = writeAll ws (setValue b w.1 w.2 isStringJS) := by
      apply setValue_absorb
      intro hg
      rw [lookupKey_writeAll_not_mem hkeys]
      exact setValue_lookup_self_of_guard hg
    rw [habs]
    exact ih hnd (setValue b w.1 w.2 isStringJS)

theorem insertKey_insertKey_self {α : Type} (m : List (String × α)) (k : String) (v : α) :
    insertKey (insertKey m k v) k v = insertKey m k v :=
  insertKey_lookup_self (lookupKey_insertKey_self m k v)

theorem splitAtFirstDot_eq_some {l t r : List Char}
    (h : splitAtFirstDot l = some (t, r)) : l = t ++ '.' :: r ∧ '.' ∉ t := by
  induction l generalizing t r with
  | nil => simp [splitAtFirstDot] at h
  | cons c cs ih =>
    by_cases hc : c = '.'
    · subst hc
      simp [splitAtFirstDot] at h
      obtain ⟨rfl, rfl⟩ := h
      simp
    · rw [splitAtFirstDot, if_neg hc, Option.map_eq_some'] at h
      obtain ⟨⟨t', r'⟩, hs, heq⟩ := h
      simp only [Prod.mk.injEq] at heq
      obtain ⟨rfl, rfl⟩ := heq
      obtain ⟨hcs, hnd⟩ := ih hs
      refine ⟨by simp [hcs], ?_⟩
      intro hm
      rcases List.mem_cons.mp hm with h1 | h2
      · exact hc h1.symm
      · exact hnd h2

theorem splitAtFirstDot_append {t : List Char} (hd : '.' ∉ t) (r : List Char) :
    splitAtFirstDot (t ++ '.' :: r) = some (t, r) := by
  induction t with
  | nil => simp [splitAtFirstDot]
  | cons c cs ih =>
    have hc : c ≠ '.' := fun he => hd (he ▸ List.mem_cons_self c cs)
    have ihs := ih (fun hm => hd (List.mem_cons_of_mem c hm))
    simp [splitAtFirstDot, hc, ihs]

theorem isValidTraceId_parts {s : List Char} (h : isValidTraceId s = true) :
    s.length = 32 ∧ ∀ c ∈ s, isLowerHexDigit c = true := by
  unfold isValidTraceId at h
  simp only [Bool.and_eq_true, decide_eq_true_eq, List.all_eq_true] at h
  exact ⟨h.1.1, h.1.2⟩

theorem isValidSpanId_parts {s : List Char} (h : isValidSpanId s = true) :
    s.length = 16 ∧ ∀ c ∈ s, isLowerHexDigit c = true := by
  unfold isValidSpanId at h
  simp only [Bool.and_eq_true, decide_eq_true_eq, List.all_eq_true] at h
  exact ⟨h.1.1, h.1.2⟩

theorem hex_ne_dot {c : Char} (h : isLowerHexDigit c = true) : c ≠ '.' := by
  intro he
  subst he
  exact absurd h (by decide)

theorem eq_dropLast_concat {α : Type} {l : List α} {a : α} (h : l.getLast? = some a) :
    l = l.dropLast ++ [a] := by
  induction l with
  | nil => simp at h
  | cons x xs ih =>
    cases xs with
    | nil =>
      simp at h
      subst h
      simp
    | cons y ys =>
      rw [List.getLast?_cons_cons] at h
      have hxs := ih h
      calc x :: y :: ys = x :: ((y :: ys).dropLast ++ [a]) := by rw [← hxs]
        _ = (x :: y :: ys).dropLast ++ [a] := by simp

theorem validSpan_getLast_ne_dot {s : List Char} (h : isValidSpanId s = true) :
    s.getLast? ≠ some '.' := by
  obtain ⟨hlen, hhex⟩ := isValidSpanId_parts h
  intro he
  have hmem : '.' ∈ s := by
    rw [eq_dropLast_concat he]
    simp
  exact hex_ne_dot (hhex _ hmem) rfl

/-- C1: the trace-parent token parser accepts exactly the trimmed strings of
the legacy form `"|" ++ traceId ++ "." ++ spanId` with an optional trailing
`"."`, where the trace half is 32 non-all-zero lowercase hex characters and
the span half 16, and in that case returns exactly those two halves; every
other string yields none. -/
theorem parseRequestId_legacy_format (s : List Char) (tp : ITraceParent) :
    _parseRequestIdStr s = some tp ↔
      ((strTrim s = '|' :: (tp.traceId ++ '.' :: tp.spanId) ∨
        strTrim s = '|' :: (tp.traceId ++ '.' :: (tp.spanId ++ ['.']))) ∧
        isValidTraceId tp.traceId = true ∧ isValidSpanId tp.spanId = true) := by
  constructor
  · intro h
    unfold _parseRequestIdStr at h
    by_cases hse : s.isEmpty = true
    · rw [if_pos hse] at h
      exact absurd h (by simp)
    rw [if_neg hse] at h
    rcases hv : strTrim s with _ | ⟨c, rest⟩
    · rw [hv] at h
      exact absurd h (by simp)
    rw [hv] at h
    by_cases hc : c = '|'
    swap
    · simp only [hc, if_false] at h
      exact absurd h (by simp)
    subst hc
    simp only [if_true] at h
    rcases hsp : splitAtFirstDot rest with _ | ⟨t, r0⟩
    · rw [hsp] at h
      exact absurd h (by simp)
    rw [hsp] at h
    simp only [] at h
    obtain ⟨hrest, hnd⟩ := splitAtFirstDot_eq_some hsp
    by_cases hl : r0.getLast? = some '.'
    · rw [if_pos hl] at h
      by_cases hg : (isValidTraceId t && isValidSpanId r0.dropLast) = true
      swap
      · rw [if_neg hg] at h
        exact absurd h (by simp)
      rw [if_pos hg] at h
      obtain ⟨htp⟩ : createTraceParent t r0.dropLast = tp := by
        simpa using h
      rw [Bool.and_eq_true] at hg
      refine ⟨Or.inr ?_, hg.1, hg.2⟩
      rw [hrest]
      simp only [createTraceParent]
      rw [← eq_dropLast_concat hl]
    · rw [if_neg hl] at h
      by_cases hg : (isValidTraceId t && isValidSpanId r0) = true
      swap
      · rw [if_neg hg] at h
        exact absurd h (by simp)
      rw [if_pos hg] at h
      obtain ⟨htp⟩ : createTraceParent t r0 = tp := by
        simpa using h
      rw [Bool.and_eq_true] at hg
      refine ⟨Or.inl ?_, hg.1, hg.2⟩
      rw [hrest]
      simp only [createTraceParent]
  · rintro ⟨hshape, hvt, hvs⟩
    have hsne : ¬ s.isEmpty = true := by
      intro hse
      rw [List.isEmpty_iff] at hse
      subst hse
      rcases hshape with h | h <;> exact absurd h (by simp [strTrim])
    obtain ⟨hlvt, hhexT⟩ := isValidTraceId_parts hvt
    have hndot : '.' ∉ tp.traceId := fun hm => hex_ne_dot (hhexT _ hm) rfl
    unfold _parseRequestIdStr
    rw [if_neg hsne]
    rcases hshape with h | h
    · rw [h]
      simp only [if_true, splitAtFirstDot_append hndot]
      rw [if_neg (validSpan_getLast_ne_dot hvs)]
      rw [if_pos (by rw [hvt, hvs]; rfl)]
      rfl
    · rw [h]
      simp only [if_true, splitAtFirstDot_append hndot]
      rw [if_pos (List.getLast?_concat tp.spanId), List.dropLast_concat]
      rw [if_pos (by rw [hvt, hvs]; rfl)]
      rfl

/-- Witness for C1 at the specification's worked example. -/
theorem parseRequestId_legacy_format_witness :
    _parseRequestIdStr sampleLegacyValue
      = some { traceId := sampleTraceId, spanId := sampleSpanId } :=
  (parseRequestId_legacy_format sampleLegacyValue
    { traceId := sampleTraceId, spanId := sampleSpanId }).mpr (by decide)

/-- C9: on a sequence input the trace-parent token decoder behaves exactly
as on the sequence's first element, and on an empty sequence it yields
none. -/
theorem parseRequestId_sequence :
    (∀ (h : List Char) (rest : List (List Char)),
        _parseRequestId (.arr (h :: rest)) = _parseRequestId (.str h)) ∧
      _parseRequestId (.arr []) = none := by
  constructor
  · intro h rest
    rfl
  · rfl

/-- Counterexample to C2 as stated: with no W3C carrier and no performance
facility, the document source holds a second, well-formed `Request-Id` meta
element, yet discovery yields none — the second candidate value of the
source is never consulted once the first `Request-Id` element's malformed
content fails to parse. -/
theorem discovery_not_all_candidates :
    discoverTraceParent twoMetaEnv = none ∧
      twoMetaEnv.document = some
        [ { name := some requestIdName, content := some "bad".toList }
        , { name := some requestIdName, content := some sampleLegacyValue } ] ∧
      _parseRequestId (.str sampleLegacyValue)
        = some { traceId := sampleTraceId, spanId := sampleSpanId } :=
  ⟨by decide, rfl, by decide⟩

/-- C2 (amended): discovery consults the W3C carrier, then the document's
meta elements, then the first navigation entry's server-timing list; the
first source yielding a token wins and later sources are not consulted;
but within the meta source only the first element named `Request-Id` is
consulted — candidates after it are ignored even when the first one's value
fails to parse. -/
theorem discovery_order (env : DiscoveryEnv) :
    (∀ tp, env.w3cTraceParent = some tp → discoverTraceParent env = some tp) ∧
    (env.w3cTraceParent = none → discoverTraceParent env = _findRequestId env) ∧
    (∀ metas tp, env.document = some metas → docRequestId metas = some tp →
        _findRequestId env = some tp) ∧
    (∀ metas, env.document = some metas → docRequestId metas = none →
        _findRequestId env =
          (match env.navEntries with
            | some navPerf => navRequestId navPerf
            | none => none)) ∧
    (env.document = none →
        _findRequestId env =
          (match env.navEntries with
            | some navPerf => navRequestId navPerf
            | none => none)) ∧
    (∀ m ms, m.name = some requestIdName →
        docRequestId (m :: ms) = _parseRequestId (rvOfOpt m.content)) := by
  refine ⟨?_, ?_, ?_, ?_, ?_, ?_⟩
  · intro tp hw
    simp [discoverTraceParent, findW3cTraceParent, hw]
  · intro hw
    simp [discoverTraceParent, findW3cTraceParent, hw]
  · intro metas tp hdoc hparse
    simp [_findRequestId, hdoc, hparse]
  · intro metas hdoc hparse
    simp [_findRequestId, hdoc, hparse]
  · intro hdoc
    simp [_findRequestId, hdoc]
  · intro m ms hname
    simp [docRequestId, _getRequestIdValue, List.find?, hname]

/-- Witness for C2: at the two-meta environment, the W3C carrier is absent,
so discovery reduces to `_findRequestId`. -/
theorem discovery_order_witness :
    discoverTraceParent twoMetaEnv = _findRequestId twoMetaEnv :=
  (discovery_order twoMetaEnv).2.1 rfl

/-- C3: at construction with a window present, the new operation identity's
`traceID` is the one generated by the identity provider, independent of the
environment; its `parentID` is the discovered span id when discovery is
enabled and succeeds (the discovered trace id is not propagated anywhere),
`undefined` when discovery is disabled — in which case the result does not
depend on the ambient environment at all — or when discovery fails. -/
theorem construct_trace_seeding (disable : Bool) (env : DiscoveryEnv)
    (internalSeed : Internal) (smSeed : _SessionManager) (userSeed : User)
    (genTraceId : List Char) :
    ((mkTelemetryContext true disable env internalSeed smSeed userSeed genTraceId).telemetryTrace
        = some { traceID := .str genTraceId
                 parentID := jsOfOpt ((if disable then none
                                       else discoverTraceParent env).map ITraceParent.spanId)
                 name := .undefV }) ∧
    (disable = true →
        mkTelemetryContext true disable env internalSeed smSeed userSeed genTraceId
          = mkTelemetryContext true disable emptyEnv internalSeed smSeed userSeed genTraceId) ∧
    (disable = true →
        (mkTelemetryContext true disable env internalSeed smSeed userSeed genTraceId).telemetryTrace
          = some { traceID := .str genTraceId, parentID := .undefV, name := .undefV }) ∧
    (∀ tp, disable = false → discoverTraceParent env = some tp →
        (mkTelemetryContext true disable env internalSeed smSeed userSeed genTraceId).telemetryTrace
          = some { traceID := .str genTraceId, parentID := .str tp.spanId, name := .undefV }) ∧
    (disable = false → discoverTraceParent env = none →
        (mkTelemetryContext true disable env internalSeed smSeed userSeed genTraceId).telemetryTrace
          = some { traceID := .str genTraceId, parentID := .undefV, name := .undefV }) := by
  refine ⟨rfl, ?_, ?_, ?_, ?_⟩
  · intro hd
    subst hd
    rfl
  · intro hd
    subst hd
    rfl
  · intro tp hd hdisc
    subst hd
    simp [mkTelemetryContext, hdisc, jsOfOpt]
  · intro hd hdisc
    subst hd
    simp [mkTelemetryContext, hdisc, jsOfOpt]

/-- Witness for C3: with discovery disabled, the seeded identity carries the
generated trace id and no parent id. -/
theorem construct_trace_seeding_witness :
    (mkTelemetryContext true true twoMetaEnv internalSeed0 smSeed0 userSeed0
        sampleTraceId).telemetryTrace
      = some { traceID := .str sampleTraceId, parentID := .undefV, name := .undefV } :=
  (construct_trace_seeding true twoMetaEnv internalSeed0 smSeed0 userSeed0
    sampleTraceId).2.2.1 rfl

/-- C5: `getSessionId` prefers an explicit string session id over the
session manager's automatic one, regardless of the latter; with no explicit
string id it falls back to the automatic session's id when that is a
string; otherwise it yields null. -/
theorem getSessionId_resolution (ctx : TelemetryContext) :
    (∀ s sid, ctx.session = some s → s.id = .str sid → getSessionId ctx = some sid) ∧
    (ctx.session = none → getSessionId ctx = autoSessionId ctx) ∧
    (∀ s, ctx.session = some s → isStringJS s.id = false →
        getSessionId ctx = autoSessionId ctx) ∧
    (∀ a aid, ctx.sessionManager.bind _SessionManager.automaticSession = some a →
        a.id = .str aid → autoSessionId ctx = some aid) ∧
    (ctx.sessionManager = none → autoSessionId ctx = none) ∧
    (∀ a, ctx.sessionManager.bind _SessionManager.automaticSession = some a →
        isStringJS a.id = false → autoSessionId ctx = none) := by
  refine ⟨?_, ?_, ?_, ?_, ?_, ?_⟩
  · intro s sid hs hid
    simp [getSessionId, hs, hid]
  · intro hs
    simp [getSessionId, hs]
  · intro s hs hid
    cases hcase : s.id with
    | str sid => rw [hcase] at hid; simp [isStringJS] at hid
    | undefV => simp [getSessionId, hs, hcase]
    | other n => simp [getSessionId, hs, hcase]
  · intro a aid ha hid
    simp [autoSessionId, ha, hid]
  · intro hm
    simp [autoSessionId, hm]
  · intro a ha hid
    cases hcase : a.id with
    | str sid => rw [hcase] at hid; simp [isStringJS] at hid
    | undefV => simp [autoSessionId, ha, hcase]
    | other n => simp [autoSessionId, ha, hcase]

/-- Witness for C5: the explicitly set session id is returned. -/
theorem getSessionId_resolution_witness :
    getSessionId sessionOnlyCtx = some "abc".toList :=
  (getSessionId_resolution sessionOnlyCtx).1 { id := .str "abc".toList } _ rfl rfl

theorem getSetValue_insertKey_self {α : Type} (e : List (String × α)) (K : String) (b D : α) :
    getSetValue (insertKey e K b) K D = b := by
  simp [getSetValue, lookupKey_insertKey_self]

theorem applySessionContext_idem (ctx : TelemetryContext) (evt : ITelemetryItem) :
    applySessionContext ctx (applySessionContext ctx evt) = applySessionContext ctx evt := by
  cases hext : evt.ext with
  | none => simp [applySessionContext, hext]
  | some ext =>
    simp only [applySessionContext, hext, getSetValue_insertKey_self]
    rw [writeAll_idem (by simp <;> decide), insertKey_insertKey_self]

theorem applyOperatingSystemContxt_idem (ctx : TelemetryContext) (evt : ITelemetryItem) :
    applyOperatingSystemContxt ctx (applyOperatingSystemContxt ctx evt)
      = applyOperatingSystemContxt ctx evt := by
  cases hos : ctx.os with
  | none =>
    cases hext : evt.ext <;> simp [applyOperatingSystemContxt, setValueExt, hos, hext]
  | some o =>
    cases hext : evt.ext with
    | none => simp [applyOperatingSystemContxt, setValueExt, hos, hext]
    | some e =>
      simp [applyOperatingSystemContxt, setValueExt, hos, hext, insertKey_insertKey_self]

theorem applyApplicationContext_idem (ctx : TelemetryContext) (evt : ITelemetryItem) :
    applyApplicationContext ctx (applyApplicationContext ctx evt)
      = applyApplicationContext ctx evt := by
  cases ha : ctx.application with
  | none => simp [applyApplicationContext, ha]
  | some application =>
    simp only [applyApplicationContext, ha, Option.getD_some]
    rw [writeAll_idem (by simp <;> decide)]

theorem applyDeviceContext_idem (ctx : TelemetryContext) (evt : ITelemetryItem) :
    applyDeviceContext ctx (applyDeviceContext ctx evt) = applyDeviceContext ctx evt := by
  cases hd : ctx.device with
  | none => simp [applyDeviceContext, hd]
  | some device =>
    simp only [applyDeviceContext, hd, Option.getD_some, getSetValue_insertKey_self]
    rw [writeAll_idem (by simp <;> decide), insertKey_insertKey_self]

theorem applyInternalContext_idem (ctx : TelemetryContext) (evt : ITelemetryItem) :
    applyInternalContext ctx (applyInternalContext ctx evt) = applyInternalContext ctx evt := by
  cases hi : ctx.internal with
  | none => simp [applyInternalContext, hi]
  | some internal =>
    by_cases hbt : evt.baseType = some _InternalLogMessage.dataType
        ∨ evt.baseType = some PageView.dataType
    · simp only [applyInternalContext, hi, hbt, if_true, Option.getD_some, List.cons_append,
        List.nil_append]
      rw [writeAll_idem (by simp <;> decide)]
    · simp only [applyInternalContext, hi, hbt, if_false, Option.getD_some, List.append_nil]
      rw [writeAll_idem (by simp <;> decide)]

theorem applyLocationContext_idem (ctx : TelemetryContext) (evt : ITelemetryItem) :
    applyLocationContext ctx (applyLocationContext ctx evt) = applyLocationContext ctx evt := by
  cases hl : ctx.location with
  | none => simp [applyLocationContext, hl]
  | some location =>
    simp only [applyLocationContext, hl, Option.getD_some]
    rw [writeAll_idem (by simp <;> decide)]

theorem applyOperationContext_idem (ctx : TelemetryContext) (evt : ITelemetryItem) :
    applyOperationContext ctx (applyOperationContext ctx evt) = applyOperationContext ctx evt := by
  cases ht : ctx.telemetryTrace with
  | none => simp [applyOperationContext, ht]
  | some telemetryTrace =>
    simp only [applyOperationContext, ht, Option.getD_some, getSetValue_insertKey_self]
    rw [writeAll_idem (by simp <;> decide), insertKey_insertKey_self]

theorem applyWebContext_idem (ctx : TelemetryContext) (evt : ITelemetryItem) :
    applyWebContext ctx (applyWebContext ctx evt) = applyWebContext ctx evt := by
  cases hw : ctx.web with
  | none => simp [applyWebContext, hw]
  | some web =>
    simp only [applyWebContext, hw, Option.getD_some]
    rw [insertKey_insertKey_self]

theorem applyUserContext_idem (ctx : TelemetryContext) (evt : ITelemetryItem) :
    applyUserContext ctx (applyUserContext ctx evt) = applyUserContext ctx evt := by
  cases hu : ctx.user with
  | none => simp [applyUserContext, hu]
  | some user =>
    simp only [applyUserContext, hu, Option.getD_some, getSetValue_insertKey_self]
    rw [writeAll_idem (by simp <;> decide), writeAll_idem (by simp <;> decide), insertKey_insertKey_self]

/-- C8: with fixed provider state, running any apply-* operation twice on a
telemetry item produces an item identical to running it once. -/
theorem applyOp_idempotent (ctx : TelemetryContext) (op : ApplyOp) (evt : ITelemetryItem) :
    applyOp ctx op (applyOp ctx op evt) = applyOp ctx op evt := by
  cases op with
  | session => exact applySessionContext_idem ctx evt
  | operatingSystem => exact applyOperatingSystemContxt_idem ctx evt
  | application => exact applyApplicationContext_idem ctx evt
  | device => exact applyDeviceContext_idem ctx evt
  | internal => exact applyInternalContext_idem ctx evt
  | location => exact applyLocationContext_idem ctx evt
  | operation => exact applyOperationContext_idem ctx evt
  | web => exact applyWebContext_idem ctx evt
  | user => exact applyUserContext_idem ctx evt

theorem lookupKey_insertKey_isSome {α : Type} (m : List (String × α)) (k k' : String) (v : α)
    (h : (lookupKey m k').isSome = true) : (lookupKey (insertKey m k v) k').isSome = true := by
  by_cases he : k' = k
  · subst he
    simp [lookupKey_insertKey_self]
  · rw [lookupKey_insertKey_other m k k' v he]
    exact h

theorem lookupKey_setValue_isSome {b : Bucket} {k k' : String} {v : JSVal} {chk : JSVal → Bool}
    (h : (lookupKey b k').isSome = true) :
    (lookupKey (setValue b k v chk) k').isSome = true := by
  unfold setValue
  split
  · exact lookupKey_insertKey_isSome b k k' v h
  · exact h

theorem lookupKey_writeAll_isSome {ws : List (String × JSVal)} {k' : String} {b : Bucket}
    (h : (lookupKey b k').isSome = true) :
    (lookupKey (writeAll ws b) k').isSome = true := by
  induction ws generalizing b with
  | nil => exact h
  | cons w ws ih =>
    rw [writeAll_cons]
    exact ih (lookupKey_setValue_isSome h)

/-- Counterexample to C6 as stated: with an explicit session id available,
`applySessionContext` on an item with no prior `ext` leaves the item
unchanged — it neither creates the `ext` mapping nor `ext.app`, and the
session id is not written anywhere. -/
theorem applySessionContext_no_creation :
    getSessionId sessionOnlyCtx = some "abc".toList ∧
      applySessionContext sessionOnlyCtx noExtItem = noExtItem ∧
      (applySessionContext sessionOnlyCtx noExtItem).ext = none :=
  ⟨rfl, rfl, rfl⟩

/-- C6 (amended): no apply-* operation ever replaces the item's `ext` or
`tags` mappings wholesale — every key present before a call is still
present after it; the operations that address the item itself create the
container and the bucket they write into on first write (device, user,
operation and web create `ext` and their bucket; application, internal,
location and user create `tags`); but `applySessionContext` and
`applyOperatingSystemContxt` write through a pre-existing `ext` and are
no-ops when `ext` is absent — in particular `applySessionContext` on an
item with no prior `ext` does not create `ext.app` even when a session id
is available. -/
theorem applyOps_bucket_discipline (ctx : TelemetryContext) (evt : ITelemetryItem) :
    (∀ op k, (extLookup evt k).isSome = true →
        (extLookup (applyOp ctx op evt) k).isSome = true) ∧
    (∀ op k, (tagsLookup evt k).isSome = true →
        (tagsLookup (applyOp ctx op evt) k).isSome = true) ∧
    (∀ d, ctx.device = some d →
        (extLookup (applyDeviceContext ctx evt) Extensions.DeviceExt).isSome = true) ∧
    (∀ u, ctx.user = some u →
        (extLookup (applyUserContext ctx evt) Extensions.UserExt).isSome = true) ∧
    (∀ tt, ctx.telemetryTrace = some tt →
        (extLookup (applyOperationContext ctx evt) Extensions.TraceExt).isSome = true) ∧
    (∀ w, ctx.web = some w →
        (extLookup (applyWebContext ctx evt) Extensions.WebExt).isSome = true) ∧
    (∀ a, ctx.application = some a → (applyApplicationContext ctx evt).tags.isSome = true) ∧
    (∀ i, ctx.internal = some i → (applyInternalContext ctx evt).tags.isSome = true) ∧
    (∀ l, ctx.location = some l → (applyLocationContext ctx evt).tags.isSome = true) ∧
    (∀ u, ctx.user = some u → (applyUserContext ctx evt).tags.isSome = true) ∧
    (evt.ext = none → applySessionContext ctx evt = evt) ∧
    (evt.ext = none → applyOperatingSystemContxt ctx evt = evt) := by
  refine ⟨?_, ?_, ?_, ?_, ?_, ?_, ?_, ?_, ?_, ?_, ?_, ?_⟩
  · intro op k h
    cases hext : evt.ext with
    | none => rw [extLookup, hext] at h; simp at h
    | some e =>
      rw [extLookup, hext] at h
      simp only [Option.some_bind] at h
      cases op with
      | session =>
        simp only [applyOp, applySessionContext, hext, extLookup, Option.some_bind]
        exact lookupKey_insertKey_isSome e _ k _ h
      | operatingSystem =>
        cases hos : ctx.os with
        | none =>
          simpa [applyOp, applyOperatingSystemContxt, setValueExt, hext, hos, extLookup] using h
        | some o =>
          simp only [applyOp, applyOperatingSystemContxt, setValueExt, hext, hos, extLookup,
            Option.some_bind]
          exact lookupKey_insertKey_isSome e _ k _ h
      | application =>
        cases ha : ctx.application with
        | none => simpa [applyOp, applyApplicationContext, ha, extLookup, hext] using h
        | some a => simpa [applyOp, applyApplicationContext, ha, extLookup, hext] using h
      | device =>
        cases hd : ctx.device with
        | none => simpa [applyOp, applyDeviceContext, hd, extLookup, hext] using h
        | some d =>
          simp only [applyOp, applyDeviceContext, hd, hext, Option.getD_some, extLookup,
            Option.some_bind]
          exact lookupKey_insertKey_isSome e _ k _ h
      | internal =>
        cases hi : ctx.internal with
        | none => simpa [applyOp, applyInternalContext, hi, extLookup, hext] using h
        | some i => simpa [applyOp, applyInternalContext, hi, extLookup, hext] using h
      | location =>
        cases hl : ctx.location with
        | none => simpa [applyOp, applyLocationContext, hl, extLookup, hext] using h
        | some l => simpa [applyOp, applyLocationContext, hl, extLookup, hext] using h
      | operation =>
        cases ht : ctx.telemetryTrace with
        | none => simpa [applyOp, applyOperationContext, ht, extLookup, hext] using h
        | some tt =>
          simp only [applyOp, applyOperationContext, ht, hext, Option.getD_some, extLookup,
            Option.some_bind]
          exact lookupKey_insertKey_isSome e _ k _ h
      | web =>
        cases hw : ctx.web with
        | none => simpa [applyOp, applyWebContext, hw, extLookup, hext] using h
        | some w =>
          simp only [applyOp, applyWebContext, hw, hext, Option.getD_some, extLookup,
            Option.some_bind]
          exact lookupKey_insertKey_isSome e _ k _ h
      | user =>
        cases hu : ctx.user with
        | none => simpa [applyOp, applyUserContext, hu, extLookup, hext] using h
        | some u =>
          simp only [applyOp, applyUserContext, hu, hext, Option.getD_some, extLookup,
            Option.some_bind]
          exact lookupKey_insertKey_isSome e _ k _ h
  · intro op k h
    cases htags : evt.tags with
    | none => rw [tagsLookup, htags] at h; simp at h
    | some t =>
      rw [tagsLookup, htags] at h
      simp only [Option.some_bind] at h
      cases op with
      | session =>
        cases hext : evt.ext with
        | none => simpa [applyOp, applySessionContext, hext, tagsLookup, htags] using h
        | some e => simpa [applyOp, applySessionContext, hext, tagsLookup, htags] using h
      | operatingSystem =>
        simpa [applyOp, applyOperatingSystemContxt, tagsLookup, htags] using h
      | application =>
        cases ha : ctx.application with
        | none => simpa [applyOp, applyApplicationContext, ha, tagsLookup, htags] using h
        | some a =>
          simp only [applyOp, applyApplicationContext, ha, htags, Option.getD_some, tagsLookup,
            Option.some_bind]
          exact lookupKey_writeAll_isSome h
      | device =>
        cases hd : ctx.device with
        | none => simpa [applyOp, applyDeviceContext, hd, tagsLookup, htags] using h
        | some d => simpa [applyOp, applyDeviceContext, hd, tagsLookup, htags] using h
      | internal =>
        cases hi : ctx.internal with
        | none => simpa [applyOp, applyInternalContext, hi, tagsLookup, htags] using h
        | some i =>
          simp only [applyOp, applyInternalContext, hi, htags, Option.getD_some, tagsLookup,
            Option.some_bind]
          exact lookupKey_writeAll_isSome h
      | location =>
        cases hl : ctx.location with
        | none => simpa [applyOp, applyLocationContext, hl, tagsLookup, htags] using h
        | some l =>
          simp only [applyOp, applyLocationContext, hl, htags, Option.getD_some, tagsLookup,
            Option.some_bind]
          exact lookupKey_writeAll_isSome h
      | operation =>
        cases ht : ctx.telemetryTrace with
        | none => simpa [applyOp, applyOperationContext, ht, tagsLookup, htags] using h
        | some tt => simpa [applyOp, applyOperationContext, ht, tagsLookup, htags] using h
      | web =>
        cases hw : ctx.web with
        | none => simpa [applyOp, applyWebContext, hw, tagsLookup, htags] using h
        | some w => simpa [applyOp, applyWebContext, hw, tagsLookup, htags] using h
      | user =>
        cases hu : ctx.user with
        | none => simpa [applyOp, applyUserContext, hu, tagsLookup, htags] using h
        | some u =>
          simp only [applyOp, applyUserContext, hu, htags, Option.getD_some, tagsLookup,
            Option.some_bind]
          exact lookupKey_writeAll_isSome h
  · intro d hd
    simp [applyDeviceContext, hd, extLookup, lookupKey_insertKey_self]
  · intro u hu
    simp [applyUserContext, hu, extLookup, lookupKey_insertKey_self]
  · intro tt ht
    simp [applyOperationContext, ht, extLookup, lookupKey_insertKey_self]
  · intro w hw
    simp [applyWebContext, hw, extLookup, lookupKey_insertKey_self]
  · intro a ha
    simp [applyApplicationContext, ha]
  · intro i hi
    simp [applyInternalContext, hi]
  · intro l hl
    simp [applyLocationContext, hl]
  · intro u hu
    simp [applyUserContext, hu]
  · intro hext
    simp [applySessionContext, hext]
  · intro hext
    obtain ⟨e, t, b⟩ := evt
    simp only at hext
    subst hext
    simp [applyOperatingSystemContxt, setValueExt]

/-- Witness for C6: `applyDeviceContext` with a device provider present
creates the `ext.device` bucket on an item with no prior `ext`. -/
theorem applyOps_bucket_discipline_witness :
    (extLookup (applyDeviceContext
        { application := none, internal := none, sessionManager := none,
          device := some { id := .str "d1".toList, ip := .undefV, model := .undefV,
                           deviceClass := .undefV },
          location := none, user := none, session := none, telemetryTrace := none,
          os := none, web := none } noExtItem) Extensions.DeviceExt).isSome = true :=
  (applyOps_bucket_discipline _ noExtItem).2.2.1 _ rfl

/-- Counterexample to C7 as stated: in the no-window construction,
`applySessionContext` is not a no-op on every item — on an item whose `ext`
mapping exists (here: empty) it attaches an empty `ext.app` bucket. -/
theorem noWindow_session_not_noop :
    applySessionContext noWindowCtx emptyExtItem
        = { ext := some [(Extensions.AppExt, [])], tags := none, baseType := none } ∧
      ¬ applySessionContext noWindowCtx emptyExtItem = emptyExtItem :=
  ⟨by decide, by decide⟩

/-- C7 (amended): in the non-interactive (no-window) construction the
providers `sessionManager`, `device`, `location`, `user`, `session`,
`telemetryTrace` (and the never-assigned `os` and `web`) are unset, and the
apply-* operations reading them are exact no-ops that never fail; the
resolved session id is null, so `applySessionContext` writes no field —
but it still attaches an empty `ext.app` bucket when the item already has
an `ext` mapping (and the always-constructed `application` and `internal`
providers keep their operations active). -/
theorem noWindow_apply_noop (ctx : TelemetryContext) (disable : Bool) (env : DiscoveryEnv)
    (internalSeed : Internal) (smSeed : _SessionManager) (userSeed : User)
    (genTraceId : List Char) (evt : ITelemetryItem)
    (hctx : ctx = mkTelemetryContext false disable env internalSeed smSeed userSeed genTraceId) :
    applyDeviceContext ctx evt = evt ∧
    applyLocationContext ctx evt = evt ∧
    applyUserContext ctx evt = evt ∧
    applyOperationContext ctx evt = evt ∧
    applyWebContext ctx evt = evt ∧
    applyOperatingSystemContxt ctx evt = evt ∧
    getSessionId ctx = none ∧
    (evt.ext = none → applySessionContext ctx evt = evt) ∧
    (∀ e, evt.ext = some e →
        applySessionContext ctx evt
          = { evt with ext := some (insertKey e Extensions.AppExt
              (getSetValue e Extensions.AppExt [])) }) := by
  subst hctx
  have hses : getSessionId
      (mkTelemetryContext false disable env internalSeed smSeed userSeed genTraceId) = none := by
    simp [getSessionId, autoSessionId, mkTelemetryContext]
  refine ⟨?_, ?_, ?_, ?_, ?_, ?_, hses, ?_, ?_⟩
  · simp [applyDeviceContext, mkTelemetryContext]
  · simp [applyLocationContext, mkTelemetryContext]
  · simp [applyUserContext, mkTelemetryContext]
  · simp [applyOperationContext, mkTelemetryContext]
  · simp [applyWebContext, mkTelemetryContext]
  · obtain ⟨e, t, b⟩ := evt
    cases e <;> simp [applyOperatingSystemContxt, setValueExt, mkTelemetryContext]
  · intro hext
    simp [applySessionContext, hext]
  · intro e hext
    simp only [applySessionContext, hext, hses]
    simp [writeAll, setValue, jsOfOpt, isStringJS]

/-- Witness for C7 at a concrete no-window context and item. -/
theorem noWindow_apply_noop_witness :
    applyDeviceContext noWindowCtx noExtItem = noExtItem :=
  (noWindow_apply_noop noWindowCtx false emptyEnv internalSeed0 smSeed0 userSeed0 []
    noExtItem rfl).1

theorem removeEmpty_lookup_other (m : ExtMap) (n n' : String) (h : n' ≠ n) :
    lookupKey (_removeEmpty m n) n' = lookupKey m n' := by
  unfold _removeEmpty
  cases hl : lookupKey m n with
  | none => rfl
  | some b =>
    by_cases hb : b.isEmpty
    · simp only [hb, if_true]
      exact lookupKey_deleteKey_other m n n' h
    · simp [hb]

theorem removeEmpty_lookup_self_ok (m : ExtMap) (n : String) :
    (match lookupKey (_removeEmpty m n) n with
      | some b => !b.isEmpty
      | none => true) = true := by
  unfold _removeEmpty
  cases hl : lookupKey m n with
  | none => simp [hl]
  | some b =>
    by_cases hb : b.isEmpty
    · simp [hb, lookupKey_deleteKey_self]
    · simp [hl, hb]

theorem removeEmpty_of_empty (m : ExtMap) (n : String) (h : lookupKey m n = some []) :
    lookupKey (_removeEmpty m n) n = none := by
  unfold _removeEmpty
  simp [h, lookupKey_deleteKey_self]

theorem removeEmpty_of_ne_empty (m : ExtMap) (n : String) (b : Bucket)
    (h : lookupKey m n = some b) (hb : b ≠ []) : _removeEmpty m n = m := by
  unfold _removeEmpty
  simp [h, hb]

theorem removeEmpty_lookup_self_eq (m : ExtMap) (n : String) :
    lookupKey (_removeEmpty m n) n
      = if lookupKey m n = some [] then none else lookupKey m n := by
  unfold _removeEmpty
  cases hl : lookupKey m n with
  | none => simp [hl]
  | some b =>
    by_cases hb : b.isEmpty
    · have hbe : b = [] := List.isEmpty_iff.mp hb
      subst hbe
      simp [hb, lookupKey_deleteKey_self]
    · have hbne : b ≠ [] := by simpa [List.isEmpty_iff] using hb
      simp [hl, hb, hbne]

theorem cleanUp_no_empty_named (evt : ITelemetryItem) :
    noEmptyBucketAt (cleanUp evt) Extensions.DeviceExt = true ∧
    noEmptyBucketAt (cleanUp evt) Extensions.UserExt = true ∧
    noEmptyBucketAt (cleanUp evt) Extensions.WebExt = true ∧
    noEmptyBucketAt (cleanUp evt) Extensions.OSExt = true ∧
    noEmptyBucketAt (cleanUp evt) Extensions.AppExt = true ∧
    noEmptyBucketAt (cleanUp evt) Extensions.TraceExt = true := by
  cases hext : evt.ext with
  | none => simp [noEmptyBucketAt, extLookup, cleanUp, hext]
  | some e =>
    refine ⟨?_, ?_, ?_, ?_, ?_, ?_⟩ <;>
    · simp only [noEmptyBucketAt, extLookup, cleanUp, hext, Option.some_bind]
      repeat rw [removeEmpty_lookup_other _ _ _ (by decide)]
      exact removeEmpty_lookup_self_ok _ _

/-- Counterexample to C4 as stated: an item arriving with a host-owned
empty object under the `ext` key "custom" keeps it through any sequence of
apply-* operations (here the empty one) and through `cleanUp`, which only
inspects the six named buckets — so a key of `ext` still maps to an object
with zero own keys afterwards. -/
theorem cleanUp_keeps_custom_empty :
    extLookup (cleanUp (runOps sessionOnlyCtx customEmptyItem [])) "custom" = some [] := by
  decide

/-- C4 (amended): for every telemetry item and every sequence of apply-*
operations followed by `cleanUp`, none of the six named extension buckets
(device, user, web, os, app, trace) is left mapping to an object with zero
own keys; `cleanUp` does not inspect host-owned buckets stored under other
keys of `ext`, which may remain empty. -/
theorem runOps_cleanUp_no_empty (ctx : TelemetryContext) (ops : List ApplyOp)
    (evt : ITelemetryItem) :
    noEmptyBucketAt (cleanUp (runOps ctx evt ops)) Extensions.DeviceExt = true ∧
    noEmptyBucketAt (cleanUp (runOps ctx evt ops)) Extensions.UserExt = true ∧
    noEmptyBucketAt (cleanUp (runOps ctx evt ops)) Extensions.WebExt = true ∧
    noEmptyBucketAt (cleanUp (runOps ctx evt ops)) Extensions.OSExt = true ∧
    noEmptyBucketAt (cleanUp (runOps ctx evt ops)) Extensions.AppExt = true ∧
    noEmptyBucketAt (cleanUp (runOps ctx evt ops)) Extensions.TraceExt = true :=
  cleanUp_no_empty_named (runOps ctx evt ops)

/-- C10: `cleanUp` deletes at most the six named extension buckets, and
among them exactly those present with zero own keys; every other key of
`ext`, every non-empty named bucket, the `tags` mapping and the base type
are left unchanged, and an item with no `ext` mapping is unchanged. -/
theorem cleanUp_frame (evt : ITelemetryItem) :
    ((cleanUp evt).tags = evt.tags ∧ (cleanUp evt).baseType = evt.baseType) ∧
    (evt.ext = none → cleanUp evt = evt) ∧
    (∀ k, k ≠ Extensions.DeviceExt → k ≠ Extensions.UserExt → k ≠ Extensions.WebExt →
        k ≠ Extensions.OSExt → k ≠ Extensions.AppExt → k ≠ Extensions.TraceExt →
        extLookup (cleanUp evt) k = extLookup evt k) ∧
    (∀ k, (k = Extensions.DeviceExt ∨ k = Extensions.UserExt ∨ k = Extensions.WebExt ∨
           k = Extensions.OSExt ∨ k = Extensions.AppExt ∨ k = Extensions.TraceExt) →
        (extLookup evt k = some [] → extLookup (cleanUp evt) k = none) ∧
        (∀ b, extLookup evt k = some b → b ≠ [] → extLookup (cleanUp evt) k = some b)) := by
  refine ⟨?_, ?_, ?_, ?_⟩
  · cases hext : evt.ext <;> simp [cleanUp, hext]
  · intro hext
    simp [cleanUp, hext]
  · intro k h1 h2 h3 h4 h5 h6
    cases hext : evt.ext with
    | none => simp [cleanUp, hext]
    | some e =>
      simp only [cleanUp, hext, extLookup, Option.some_bind]
      rw [removeEmpty_lookup_other _ _ _ h6, removeEmpty_lookup_other _ _ _ h5,
        removeEmpty_lookup_other _ _ _ h4, removeEmpty_lookup_other _ _ _ h3,
        removeEmpty_lookup_other _ _ _ h2, removeEmpty_lookup_other _ _ _ h1]
  · intro k hk
    rcases hk with rfl | rfl | rfl | rfl | rfl | rfl <;>
    · constructor
      · intro hsome
        cases hext : evt.ext with
        | none => rw [extLookup, hext] at hsome; exact absurd hsome (by simp)
        | some e =>
          rw [extLookup, hext, Option.some_bind] at hsome
          simp only [cleanUp, hext, extLookup, Option.some_bind]
          repeat rw [removeEmpty_lookup_other _ _ _ (by decide)]
          rw [removeEmpty_lookup_self_eq]
          repeat rw [removeEmpty_lookup_other _ _ _ (by decide)]
          rw [hsome]
          simp
      · intro b hsome hb
        cases hext : evt.ext with
        | none => rw [extLookup, hext] at hsome; exact absurd hsome (by simp)
        | some e =>
          rw [extLookup, hext, Option.some_bind] at hsome
          simp only [cleanUp, hext, extLookup, Option.some_bind]
          repeat rw [removeEmpty_lookup_other _ _ _ (by decide)]
          rw [removeEmpty_lookup_self_eq]
          repeat rw [removeEmpty_lookup_other _ _ _ (by decide)]
          rw [hsome]
          simp [hb]

/-- Witness for C10: a key outside the six named buckets is untouched. -/
theorem cleanUp_frame_witness :
    extLookup (cleanUp customEmptyItem) "custom" = extLookup customEmptyItem "custom" :=
  (cleanUp_frame customEmptyItem).2.2.1 "custom" (by decide) (by decide) (by decide)
    (by decide) (by decide) (by decide)
